import Mathlib

/-!
Verification development for the futapp ETL normalization layer.

Strings are modelled as lists of Unicode codepoints (`Str := List Nat`),
so that the character-level operations of the Python source
(`str.lower`, `str.isalnum`, `str.strip`, `str.split`, `re.sub`) can be
embedded faithfully over the Latin repertoire the pipeline handles.
DataFrames are modelled as a list of column labels plus a list of rows of
cells; pandas missing values (NaN) are modelled by an explicit `Cell.nan`.
-/

set_option maxRecDepth 100000

namespace Futapp

abbrev Str := List Nat

/-- Codepoints of a Lean string literal, used to write concrete inputs. -/
def codes (s : String) : Str := s.data.map Char.toNat

/-- Model of Python `str.lower` on a single codepoint, covering ASCII,
Latin-1 and the two-case Turkish letters used by the source
(`İ`, whose Python lowercase is two codepoints, does not occur in this
development). -/
def pyLower (c : Nat) : Nat :=
  if 65 ≤ c ∧ c ≤ 90 then c + 32
  else if 192 ≤ c ∧ c ≤ 222 ∧ c ≠ 215 then c + 32
  else if c = 286 ∨ c = 350 then c + 1
  else c

/-- The six lowercase Turkish characters folded by both `standardize_name`
(normalize_utils.py lines 7-8) and `_slug` (transform.py lines 16-17):
ı→i, ğ→g, ş→s, ö→o, ü→u, ç→c.  The sequential `str.replace` calls of the
source act on pairwise-distinct single characters whose replacements are
plain ASCII, so they are equivalent to one codepoint map. -/
def turkishFold (c : Nat) : Nat :=
  if c = 305 then 105
  else if c = 287 then 103
  else if c = 351 then 115
  else if c = 246 then 111
  else if c = 252 then 117
  else if c = 231 then 99
  else c

/-- Model of Python `str.isalnum` on a codepoint over the Latin repertoire
(digits, ASCII letters, Latin-1 Supplement and Latin Extended-A and B
letters; 215 and 247 are the multiplication and division signs). -/
def pyIsAlnum (c : Nat) : Bool :=
  decide ((48 ≤ c ∧ c ≤ 57) ∨ (65 ≤ c ∧ c ≤ 90) ∨ (97 ≤ c ∧ c ≤ 122) ∨
    (192 ≤ c ∧ c ≤ 591 ∧ c ≠ 215 ∧ c ≠ 247))

/-- ASCII whitespace, the `\s` class and `str.strip`/`str.split`
separators for the inputs handled here. -/
def isWsChar (c : Nat) : Bool :=
  decide (c = 9 ∨ c = 10 ∨ c = 11 ∨ c = 12 ∨ c = 13 ∨ c = 32)

/-- Split into chunks at whitespace, keeping empty chunks. -/
def splitAll (xs : Str) : List Str :=
  xs.foldr (fun c acc =>
    if isWsChar c then [] :: acc
    else match acc with
      | [] => [[c]]
      | w :: ws => (c :: w) :: ws) []

/-- Model of Python `str.split()` with no argument: split on whitespace
runs and drop empty fields. -/
def pyWords (xs : Str) : List Str := (splitAll xs).filter (fun w => !w.isEmpty)

/-- Model of `" ".join(ws)` (codepoint 32 is the space). -/
def joinWords : List Str → Str
  | [] => []
  | [w] => w
  | w :: ws => w ++ 32 :: joinWords ws

/-- Model of Python `str.strip()`. -/
def pyStrip (xs : Str) : Str :=
  ((xs.dropWhile isWsChar).reverse.dropWhile isWsChar).reverse

/-- Embedding of `standardize_name` (src/normalize_utils.py lines 3-10):
lower-case, fold the six Turkish characters, keep only alphanumerics and
spaces, then collapse whitespace via `" ".join(n.split())`.  The
`pd.isna(name)` guard of the source concerns missing (non-string) input,
which this string-level embedding does not need to represent. -/
def standardize_name (xs : Str) : Str :=
  joinWords (pyWords
    (((xs.map pyLower).map turkishFold).filter (fun c => pyIsAlnum c || c == 32)))

/-- Model of `re.sub(r"\s+", " ", s)`: replace each maximal whitespace run
by a single space. -/
def collapseWs (xs : Str) : Str :=
  xs.foldr (fun c acc =>
    if isWsChar c then
      match acc with
      | 32 :: _ => acc
      | _ => 32 :: acc
    else c :: acc) []

/-- Characters kept by `re.sub(r"[^a-z0-9 ]+", "", s)`. -/
def isSlugKeep (c : Nat) : Bool :=
  decide ((97 ≤ c ∧ c ≤ 122) ∨ (48 ≤ c ∧ c ≤ 57) ∨ c = 32)

/-- Embedding of `_slug` (src/src/transform.py lines 13-21): strip, lower,
fold Turkish characters, collapse whitespace, delete everything outside
`[a-z0-9 ]`, strip again and replace spaces by underscores (codepoint 95). -/
def pySlug (xs : Str) : Str :=
  let s1 := (pyStrip xs).map pyLower
  let s2 := s1.map turkishFold
  let s3 := collapseWs s2
  let s4 := s3.filter isSlugKeep
  let s5 := pyStrip s4
  s5.map (fun c => if c = 32 then 95 else c)

/-! ### MD5 (embedding of `hashlib.md5`, used by `_stable_id`)

`_stable_id` (src/src/transform.py lines 24-26) hashes the UTF-8 encoding
of its key with MD5 and keeps the first 12 hex digits.  MD5 is embedded
below over `Nat` with explicit reduction modulo 2^32 (RFC 1321: the
sine-derived constant table, the per-round shift table, little-endian
padding and digest serialization). -/

/-- The 64 MD5 sine constants, `floor(abs(sin(i+1)) * 2^32)`. -/
def md5K : List Nat :=
  [3614090360, 3905402710, 606105819, 3250441966, 4118548399, 1200080426,
   2821735955, 4249261313, 1770035416, 2336552879, 4294925233, 2304563134,
   1804603682, 4254626195, 2792965006, 1236535329, 4129170786, 3225465664,
   643717713, 3921069994, 3593408605, 38016083, 3634488961, 3889429448,
   568446438, 3275163606, 4107603335, 1163531501, 2850285829, 4243563512,
   1735328473, 2368359562, 4294588738, 2272392833, 1839030562, 4259657740,
   2763975236, 1272893353, 4139469664, 3200236656, 681279174, 3936430074,
   3572445317, 76029189, 3654602809, 3873151461, 530742520, 3299628645,
   4096336452, 1126891415, 2878612391, 4237533241, 1700485571, 2399980690,
   4293915773, 2240044497, 1873313359, 4264355552, 2734768916, 1309151649,
   4149444226, 3174756917, 718787259, 3951481745]

/-- The MD5 per-round left-rotation amounts. -/
def md5S : List Nat :=
  [7, 12, 17, 22, 7, 12, 17, 22, 7, 12, 17, 22, 7, 12, 17, 22,
   5, 9, 14, 20, 5, 9, 14, 20, 5, 9, 14, 20, 5, 9, 14, 20,
   4, 11, 16, 23, 4, 11, 16, 23, 4, 11, 16, 23, 4, 11, 16, 23,
   6, 10, 15, 21, 6, 10, 15, 21, 6, 10, 15, 21, 6, 10, 15, 21]

/-- Bitwise complement on 32-bit words represented as `Nat`. -/
def bnot32 (x : Nat) : Nat := 4294967295 - x % 4294967296

/-- Left rotation of a 32-bit word. -/
def rotl32 (x n : Nat) : Nat :=
  ((x % 4294967296) * 2 ^ n) % 4294967296 + (x % 4294967296) / 2 ^ (32 - n)

/-- Little-endian 4-byte serialization of a 32-bit word. -/
def le4 (x : Nat) : List Nat :=
  [x % 256, (x / 256) % 256, (x / 65536) % 256, (x / 16777216) % 256]

/-- Little-endian 8-byte serialization of a 64-bit length field. -/
def le8 (x : Nat) : List Nat :=
  [x % 256, (x / 256) % 256, (x / 65536) % 256, (x / 16777216) % 256,
   (x / 4294967296) % 256, (x / 1099511627776) % 256,
   (x / 281474976710656) % 256, (x / 72057594037927936) % 256]

/-- MD5 padding: append byte 0x80, zero-pad to 56 mod 64, then the bit
length as a little-endian 64-bit number. -/
def md5Pad (msg : List Nat) : List Nat :=
  let padZeros := (120 - (msg.length + 1) % 64) % 64
  msg ++ [128] ++ List.replicate padZeros 0 ++ le8 (msg.length * 8)

/-- Split a byte list into 64-byte blocks (fuel-driven structural
recursion so that the kernel can evaluate it; the fuel `xs.length` always
suffices because each step consumes at least one byte). -/
def chunk64Go : Nat → List Nat → List (List Nat)
  | 0, _ => []
  | _, [] => []
  | fuel + 1, x :: xs => ((x :: xs).take 64) :: chunk64Go fuel ((x :: xs).drop 64)

def chunk64 (xs : List Nat) : List (List Nat) := chunk64Go xs.length xs

/-- The 16 little-endian 32-bit words of one 64-byte block. -/
def md5Words (block : List Nat) : List Nat :=
  (List.range 16).map (fun j =>
    block.getD (4 * j) 0 + 256 * block.getD (4 * j + 1) 0 +
      65536 * block.getD (4 * j + 2) 0 + 16777216 * block.getD (4 * j + 3) 0)

/-- One MD5 round: mixing function and message index depend on the round
quarter, then the state rotates. -/
def md5Round (m : List Nat) (st : Nat × Nat × Nat × Nat) (i : Nat) :
    Nat × Nat × Nat × Nat :=
  let a := st.1
  let b := st.2.1
  let c := st.2.2.1
  let d := st.2.2.2
  let fg : Nat × Nat :=
    if i < 16 then ((b &&& c) ||| (bnot32 b &&& d), i)
    else if i < 32 then ((d &&& b) ||| (bnot32 d &&& c), (5 * i + 1) % 16)
    else if i < 48 then (b ^^^ c ^^^ d, (3 * i + 5) % 16)
    else (c ^^^ (b ||| bnot32 d), (7 * i) % 16)
  let f2 := (fg.1 + a + md5K.getD i 0 + m.getD fg.2 0) % 4294967296
  (d, (b + rotl32 f2 (md5S.getD i 0)) % 4294967296, b, c)

/-- Process one 64-byte block, adding the round output to the state. -/
def md5Block (st : Nat × Nat × Nat × Nat) (block : List Nat) :
    Nat × Nat × Nat × Nat :=
  let m := md5Words block
  let r := (List.range 64).foldl (md5Round m) st
  ((st.1 + r.1) % 4294967296, (st.2.1 + r.2.1) % 4294967296,
   (st.2.2.1 + r.2.2.1) % 4294967296, (st.2.2.2 + r.2.2.2) % 4294967296)

/-- MD5 digest of a byte list, as 16 bytes. -/
def md5Bytes (msg : List Nat) : List Nat :=
  let st := (chunk64 (md5Pad msg)).foldl md5Block
    (1732584193, 4023233417, 2562383102, 271733878)
  le4 st.1 ++ le4 st.2.1 ++ le4 st.2.2.1 ++ le4 st.2.2.2

/-- Lowercase hex digit of a value below 16. -/
def hexDigit (n : Nat) : Nat := if n < 10 then 48 + n else 87 + n

/-- Two lowercase hex digits of a byte. -/
def byteHex (b : Nat) : Str := [hexDigit (b / 16), hexDigit (b % 16)]

/-- Model of `hashlib.md5(bytes).hexdigest()`: 32 lowercase hex digits. -/
def md5Hex (msg : List Nat) : Str := ((md5Bytes msg).map byteHex).flatten

/-- UTF-8 encoding of a codepoint string, as used by `str.encode("utf-8")`. -/
def utf8Encode (cs : Str) : List Nat :=
  (cs.map (fun c =>
    if c < 128 then [c]
    else if c < 2048 then [192 + c / 64, 128 + c % 64]
    else if c < 65536 then
      [224 + c / 4096, 128 + (c / 64) % 64, 128 + c % 64]
    else
      [240 + c / 262144, 128 + (c / 4096) % 64, 128 + (c / 64) % 64,
       128 + c % 64])).flatten

/-- Embedding of `_stable_id` (src/src/transform.py lines 24-26):
the prefix, an underscore (the `_` of the f-string), and the first 12 hex
digits of the MD5 of the UTF-8 encoded key. -/
def stable_id (pre key : Str) : Str :=
  pre ++ [95] ++ (md5Hex (utf8Encode key)).take 12

/-! ### Cells and DataFrames

A pandas cell is a string, an integer, a float (modelled as a rational;
the floats handled here are small decimals) or a missing value (NaN).
A DataFrame is a list of column labels and a list of rows. -/

inductive Cell where
  | s (v : Str)
  | i (v : Int)
  | f (v : Rat)
  | nan
deriving DecidableEq

structure DF where
  cols : List Str
  rows : List (List Cell)
deriving DecidableEq

/-- Decimal digits of a natural number. -/
def natToStr (n : Nat) : Str := (Nat.toDigits 10 n).map Char.toNat

/-- Model of Python `str` on an integer. -/
def intToStr (i : Int) : Str :=
  if i < 0 then 45 :: natToStr i.natAbs else natToStr i.toNat

/-- Decimal expansion digits of `num / den` (with fuel; exact for the
terminating decimals used in this development). -/
def fracDigits : Nat → Nat → Nat → Str
  | 0, _, _ => []
  | _, 0, _ => []
  | fuel + 1, num, den => (48 + num * 10 / den) :: fracDigits fuel (num * 10 % den) den

/-- Model of Python `str` on a float, for floats that are small exact
decimals (the only ones appearing here). -/
def ratToStr (q : Rat) : Str :=
  let sign : Str := if q < 0 then [45] else []
  let a := q.num.natAbs
  sign ++ natToStr (a / q.den) ++ [46] ++
    (if a % q.den = 0 then [48] else fracDigits 17 (a % q.den) q.den)

/-- Model of Python `str(x)` on a cell (`astype(str)` applies it
elementwise; NaN prints as "nan"). -/
def pyStr (c : Cell) : Str :=
  match c with
  | .s v => v
  | .i n => intToStr n
  | .f q => ratToStr q
  | .nan => codes "nan"

/-- Python `==` between cell values: strings compare with strings,
numbers with numbers; NaN is equal to nothing (IEEE semantics). -/
def pyEqCell : Cell → Cell → Bool
  | .s a, .s b => decide (a = b)
  | .i a, .i b => decide (a = b)
  | .f a, .f b => decide (a = b)
  | .i a, .f b => decide ((a : Rat) = b)
  | .f a, .i b => decide (a = (b : Rat))
  | _, _ => false

/-- Python truthiness of a cell value; note that float NaN is truthy. -/
def pyTruthy : Cell → Bool
  | .s v => !v.isEmpty
  | .i n => decide (n ≠ 0)
  | .f q => decide (q ≠ 0)
  | .nan => true

/-- Lookup in a Python dict built by `dict(zip(keys, values))`: a later
duplicate key overwrites an earlier one. -/
def pyDictLookup (kvs : List (Cell × Cell)) (k : Cell) : Option Cell :=
  (kvs.reverse.find? (fun p => pyEqCell p.1 k)).map (fun p => p.2)

def isDigitC (c : Nat) : Bool := decide (48 ≤ c ∧ c ≤ 57)

def digitsVal (ds : Str) : Nat := ds.foldl (fun a c => a * 10 + (c - 48)) 0

/-- Model of numeric-string parsing as done by
`pd.to_numeric(errors="coerce")` for plain decimal literals: optional
sign, integer part, optional fractional part (exponents and special
floats are out of the repertoire handled here). -/
def parseNumStr (v : Str) : Option Rat :=
  let s := pyStrip v
  let signAndRest : Int × Str :=
    match s with
    | 45 :: rest => (-1, rest)
    | 43 :: rest => (1, rest)
    | _ => (1, s)
  let s2 := signAndRest.2
  let ip := s2.takeWhile (fun c => decide (c ≠ 46))
  let rest := s2.dropWhile (fun c => decide (c ≠ 46))
  let fr : Option Str :=
    match rest with
    | [] => some []
    | 46 :: tail => some tail
    | _ => none
  match fr with
  | none => none
  | some frd =>
    if ip.all isDigitC ∧ frd.all isDigitC ∧ ¬ (ip = [] ∧ frd = []) ∧ s2 ≠ [] then
      some ((signAndRest.1 : Rat) *
        (digitsVal ip + (digitsVal frd : Rat) / (10 ^ frd.length)))
    else none

/-- `pd.to_numeric(..., errors="coerce")` on one cell. -/
def toNumeric (c : Cell) : Option Rat :=
  match c with
  | .i n => some (n : Rat)
  | .f q => some q
  | .nan => none
  | .s v => parseNumStr v

/-- Truncation toward zero, as Python `astype(int)` does. -/
def ratTruncInt (q : Rat) : Int := q.num / (q.den : Int)

/-- Embedding of `_as_int_series` (transform.py lines 41-42) on one cell:
coerce to a number, turn failures into 0, truncate to an integer. -/
def asIntCell (c : Cell) : Int := ratTruncInt ((toNumeric c).getD 0)

/-- Embedding of `_as_float_series` (transform.py lines 45-46) on one cell. -/
def asFloatCell (c : Cell) : Rat := (toNumeric c).getD 0

/-- A pandas frame is `empty` when it has no rows or no columns. -/
def dfIsEmpty (df : DF) : Bool := df.rows.isEmpty || df.cols.isEmpty

/-- Labels are lowered with `str.lower` when `_pick_col` matches them. -/
def lowerStr (s : Str) : Str := s.map pyLower

/-- Index of the last column whose lowered label equals `l` (the dict
comprehension of `_pick_col` lets a later duplicate label win). -/
def lastMatchIdx (cols : List Str) (l : Str) : Option Nat :=
  ((List.range cols.length).filter
    (fun i => decide (lowerStr (cols.getD i []) = l))).getLast?

/-- Embedding of `_pick_col` (transform.py lines 29-38): first candidate
(in priority order) whose lowercased name matches a column label,
resolved to that column's index. -/
def pick_col (df : DF) (cands : List Str) : Option Nat :=
  if dfIsEmpty df then none
  else cands.findSome? (fun cand => lastMatchIdx df.cols (lowerStr cand))

/-- Embedding of `_dedup_cols` (transform.py lines 49-53): keep the first
occurrence of each duplicated column label. -/
def dedupCols (df : DF) : DF :=
  if dfIsEmpty df then df
  else
    let kept := (List.range df.cols.length).filter
      (fun i => decide ((df.cols.getD i []) ∉ df.cols.take i))
    ⟨kept.map (fun i => df.cols.getD i []),
     df.rows.map (fun r => kept.map (fun i => r.getD i Cell.nan))⟩

/-- Keep the first list element for each key value, dropping later rows
with an already-seen key — the semantics of
`DataFrame.drop_duplicates(subset=[k])`. -/
def dedupByKeyGo {α β : Type} [DecidableEq β] (key : α → β) :
    List β → List α → List α
  | _, [] => []
  | seen, x :: xs =>
    if key x ∈ seen then dedupByKeyGo key seen xs
    else x :: dedupByKeyGo key (key x :: seen) xs

def dedupByKey {α β : Type} [DecidableEq β] (key : α → β) (l : List α) :
    List α := dedupByKeyGo key [] l

/-- `drop_duplicates()` with no subset: deduplicate by the whole value. -/
def dedupFirst {α : Type} [DecidableEq α] (l : List α) : List α :=
  dedupByKey id l

/-! ### Entity builders (transform.py lines 59-139) -/

def teamsCols : List Str := [codes "id", codes "name", codes "country"]

def playersCols : List Str :=
  [codes "id", codes "name", codes "birth_date", codes "nationality",
   codes "position"]

/-- Embedding of `build_teams_from_fbref` (transform.py lines 59-75). -/
def build_teams_from_fbref (dfOpt : Option DF) : DF :=
  match dfOpt with
  | none => ⟨teamsCols, []⟩
  | some df =>
    if dfIsEmpty df then ⟨teamsCols, []⟩
    else
      match pick_col df [codes "squad", codes "team", codes "squad_name"] with
      | none => ⟨teamsCols, []⟩
      | some j =>
        let names := dedupFirst (df.rows.map (fun r => r.getD j Cell.nan))
        ⟨teamsCols, names.map (fun n =>
          [Cell.s (stable_id (codes "TEAM") (pySlug (pyStr n))), n, Cell.s []])⟩

/-- Embedding of `build_players_from_fbref` (transform.py lines 81-99).
Rows are deduplicated on the player column only; the stored name and
position come from the first occurrence. -/
def build_players_from_fbref (dfOpt : Option DF) : DF :=
  match dfOpt with
  | none => ⟨playersCols, []⟩
  | some df =>
    if dfIsEmpty df then ⟨playersCols, []⟩
    else
      match pick_col df [codes "player", codes "player_name", codes "name"] with
      | none => ⟨playersCols, []⟩
      | some j =>
        let posIdx := pick_col df [codes "position", codes "pos"]
        let base := dedupByKey (fun r => r.getD j Cell.nan) df.rows
        ⟨playersCols, base.map (fun r =>
          [Cell.s (stable_id (codes "PLAYER") (pySlug (pyStr (r.getD j Cell.nan)))),
           r.getD j Cell.nan, Cell.s [], Cell.s [],
           match posIdx with
           | some pj => Cell.s (pyStr (r.getD pj Cell.nan))
           | none => Cell.s []])⟩

/-- Embedding of `build_teams_from_understat` (transform.py lines
105-117); the team column is matched by the exact label "team" after
`_dedup_cols`. -/
def build_teams_from_understat (dfOpt : Option DF) : DF :=
  match dfOpt with
  | none => ⟨teamsCols, []⟩
  | some df =>
    if dfIsEmpty df then ⟨teamsCols, []⟩
    else
      let df2 := dedupCols df
      match df2.cols.findIdx? (fun c => decide (c = codes "team")) with
      | none => ⟨teamsCols, []⟩
      | some j =>
        let names := dedupFirst (df2.rows.map (fun r => r.getD j Cell.nan))
        ⟨teamsCols, names.map (fun n =>
          [Cell.s (stable_id (codes "TEAM") (pySlug (pyStr n))), n, Cell.s []])⟩

/-- Embedding of `build_players_from_understat` (transform.py lines
120-139); unlike the fbref variant, a present position cell is stored
unchanged (no `astype(str)`). -/
def build_players_from_understat (dfOpt : Option DF) : DF :=
  match dfOpt with
  | none => ⟨playersCols, []⟩
  | some df =>
    if dfIsEmpty df then ⟨playersCols, []⟩
    else
      let df2 := dedupCols df
      match df2.cols.findIdx? (fun c => decide (c = codes "player")) with
      | none => ⟨playersCols, []⟩
      | some j =>
        let posIdx := df2.cols.findIdx? (fun c => decide (c = codes "position"))
        let base := dedupByKey (fun r => r.getD j Cell.nan) df2.rows
        ⟨playersCols, base.map (fun r =>
          [Cell.s (stable_id (codes "PLAYER") (pySlug (pyStr (r.getD j Cell.nan)))),
           r.getD j Cell.nan, Cell.s [], Cell.s [],
           match posIdx with
           | some pj => r.getD pj Cell.nan
           | none => Cell.s []])⟩

/-! ### Fact merger (`build_player_season_stats`, transform.py lines 190-320) -/

/-- One projected fact row, the dict appended to `rows` by the source. -/
structure SRow where
  player_id : Cell
  team_id : Cell
  season_id : Str
  minutes : Int
  goals : Int
  assists : Int
  xg : Rat
deriving DecidableEq

/-- Embedding of the local `_to_year` (transform.py lines 222-225 and
274-277): `re.match(r"(\d{4})", s)` anchors at the start, so it succeeds
exactly when the first four characters are digits. -/
def toYear (s : Str) : Option Nat :=
  match s with
  | a :: b :: c :: d :: _ =>
    if isDigitC a && isDigitC b && isDigitC c && isDigitC d then
      some (digitsVal [a, b, c, d])
    else none
  | _ => none

/-- `str(y) if y else ""` applied to the parsed season year. -/
def seasonIdStr (y : Option Nat) : Str :=
  match y with
  | some y => if y = 0 then [] else natToStr y
  | none => []

/-- The `team_id` written into a projected row (transform.py lines 229 and
242, 282 and 296): an empty teams dict gives "", a dict miss gives NaN
(`Series.map`), and the `x if isinstance(x, str) else (x or "")`
expression keeps NaN because NaN is truthy in Python. -/
def teamIdCell (tm : List (Cell × Cell)) (tname : Str) : Cell :=
  if tm.isEmpty then Cell.s []
  else
    match pyDictLookup tm (Cell.s tname) with
    | none => Cell.nan
    | some v =>
      match v with
      | Cell.s w => Cell.s w
      | v2 => if pyTruthy v2 then v2 else Cell.s []

/-- Resolved column indices for one source extract. -/
structure StatCtx where
  pcol : Option Nat
  tcol : Option Nat
  mincol : Option Nat
  gcol : Option Nat
  acol : Option Nat
  scol : Option Nat
  xgcol : Option Nat

/-- Column resolution of the FBref branch (transform.py lines 211-216);
FBref carries no xg column and the branch writes `"xg": 0.0`. -/
def fbCtx (df : DF) : StatCtx :=
  ⟨pick_col df [codes "player", codes "player_name", codes "name"],
   pick_col df [codes "squad", codes "team"],
   pick_col df [codes "minutes", codes "min"],
   pick_col df [codes "goals", codes "gls"],
   pick_col df [codes "assists", codes "ast"],
   pick_col df [codes "season", codes "season_id", codes "year"],
   none⟩

/-- An exact label match takes priority, otherwise `_pick_col` aliases —
the pattern of the understat branch (transform.py lines 255-266),
including the forced preference for the raw "season" column. -/
def exactOr (df : DF) (label : Str) (alts : List Str) : Option Nat :=
  if label ∈ df.cols then df.cols.findIdx? (fun c => decide (c = label))
  else pick_col df alts

/-- Column resolution of the understat branch (transform.py lines 255-266). -/
def usCtx (df : DF) : StatCtx :=
  ⟨exactOr df (codes "player") [codes "player_name", codes "name"],
   exactOr df (codes "team") [codes "squad", codes "team"],
   exactOr df (codes "minutes") [codes "min"],
   exactOr df (codes "goals") [codes "gls"],
   exactOr df (codes "assists") [codes "ast"],
   exactOr df (codes "season") [codes "season_id", codes "year"],
   exactOr df (codes "xg") [codes "xg_per90", codes "expected_goals"]⟩

def numOpt (j : Option Nat) (r : List Cell) : Int :=
  match j with
  | some j => asIntCell (r.getD j Cell.nan)
  | none => 0

def fltOpt (j : Option Nat) (r : List Cell) : Rat :=
  match j with
  | some j => asFloatCell (r.getD j Cell.nan)
  | none => 0

/-- The stringified raw player name of a row (`tmp["_pname"]`,
transform.py lines 219 and 271): `str` of the player cell if a player
column was resolved, else the broadcast empty string. -/
def rawPlayerName (ctx : StatCtx) (r : List Cell) : Str :=
  match ctx.pcol with
  | some j => pyStr (r.getD j Cell.nan)
  | none => []

/-- Projection of one raw extract row into a fact row (the loop bodies at
transform.py lines 235-249 and 289-303): the player id is resolved by
looking the *raw* stringified player name up in the name-to-id dict; a
missing or NaN result drops the row (`continue`), a team miss degrades to
NaN, numeric fields coerce failures to zero. -/
def projectRow (pm tm : List (Cell × Cell)) (ctx : StatCtx) (r : List Cell) :
    Option SRow :=
  let pname : Str := rawPlayerName ctx r
  let tname : Str :=
    match ctx.tcol with
    | some j => pyStr (r.getD j Cell.nan)
    | none => []
  let syear : Option Nat :=
    match ctx.scol with
    | some j => toYear (pyStr (r.getD j Cell.nan))
    | none => none
  match pyDictLookup pm (Cell.s pname) with
  | none => none
  | some pid =>
    if pid = Cell.nan then none
    else
      some ⟨pid, teamIdCell tm tname, seasonIdStr syear,
        numOpt ctx.mincol r, numOpt ctx.gcol r, numOpt ctx.acol r,
        fltOpt ctx.xgcol r⟩

def fbRows (df : DF) (pm tm : List (Cell × Cell)) : List SRow :=
  df.rows.filterMap (projectRow pm tm (fbCtx df))

def usRows (df : DF) (pm tm : List (Cell × Cell)) : List SRow :=
  let d := dedupCols df
  d.rows.filterMap (projectRow pm tm (usCtx d))

def rowKey (r : SRow) : Cell × Cell × Str := (r.player_id, r.team_id, r.season_id)

/-- `groupby` (default `dropna=True`) silently excludes rows whose group
key contains a missing value. -/
def keyValid (r : SRow) : Bool :=
  !(decide (r.player_id = Cell.nan)) && !(decide (r.team_id = Cell.nan))

def maxIntD : List Int → Int
  | [] => 0
  | x :: xs => xs.foldl max x

def maxRatD : List Rat → Rat
  | [] => 0
  | x :: xs => xs.foldl max x

/-- The merged row for one `(player_id, team_id, season_id)` group:
the named aggregation at transform.py lines 310-318 takes the maximum of
every numeric field. -/
def aggRow (grp : List SRow) (k : Cell × Cell × Str) : SRow :=
  ⟨k.1, k.2.1, k.2.2, maxIntD (grp.map SRow.minutes),
   maxIntD (grp.map SRow.goals), maxIntD (grp.map SRow.assists),
   maxRatD (grp.map SRow.xg)⟩

/-- Embedding of the `groupby([...]).agg(max)` step (transform.py lines
310-318).  pandas emits groups in sorted key order; the claims proved
here are insensitive to row order, so groups are emitted in order of
first appearance. -/
def aggregateRows (rs : List SRow) : List SRow :=
  let valid := rs.filter keyValid
  (dedupFirst (valid.map rowKey)).map
    (fun k => aggRow (valid.filter (fun r => decide (rowKey r = k))) k)

def statsCols : List Str :=
  [codes "player_id", codes "team_id", codes "season_id", codes "minutes",
   codes "goals", codes "xg", codes "assists"]

def srowCells (r : SRow) : List Cell :=
  [r.player_id, r.team_id, Cell.s r.season_id, Cell.i r.minutes,
   Cell.i r.goals, Cell.f r.xg, Cell.i r.assists]

/-- Result of a Python call that can raise: either a DataFrame or an
uncaught exception (here always a `KeyError`). -/
inductive PyResult where
  | ok (df : DF)
  | exn (msg : Str)
deriving DecidableEq

/-- `dict(zip(df["name"], df["id"]))` on a catalog frame; selecting a
missing column label raises `KeyError`, modelled as the `none` payload. -/
def catalogMap (d : DF) : Option (List (Cell × Cell)) × Str :=
  match d.cols.findIdx? (fun c => decide (c = codes "name")) with
  | none => (none, codes "KeyError: name")
  | some ni =>
    match d.cols.findIdx? (fun c => decide (c = codes "id")) with
    | none => (none, codes "KeyError: id")
    | some ii =>
      (some (d.rows.map (fun r => (r.getD ni Cell.nan, r.getD ii Cell.nan))), [])

def optEmpty (dfOpt : Option DF) : Bool :=
  match dfOpt with
  | none => true
  | some d => dfIsEmpty d

/-- Embedding of `build_player_season_stats` (transform.py lines
190-320).  The result is `Except` because the source dereferences
`players_df["name"]`, `players_df["id"]`, `teams_df["name"]`,
`teams_df["id"]` without guards (lines 204-205), which raises `KeyError`
on a non-empty catalog lacking those columns; the teams dict is built
first, as in the source. -/
def build_player_season_stats (dfFb dfUs playersDf teamsDf : Option DF) :
    PyResult :=
  if optEmpty dfFb && optEmpty dfUs then PyResult.ok ⟨statsCols, []⟩
  else if optEmpty playersDf then PyResult.ok ⟨statsCols, []⟩
  else
    let tmRes : Option (List (Cell × Cell)) × Str :=
      match teamsDf with
      | none => (some [], [])
      | some d => if dfIsEmpty d then (some [], []) else catalogMap d
    match tmRes.1 with
    | none => PyResult.exn tmRes.2
    | some tm =>
      let pmRes : Option (List (Cell × Cell)) × Str :=
        match playersDf with
        | none => (some [], [])
        | some d => catalogMap d
      match pmRes.1 with
      | none => PyResult.exn pmRes.2
      | some pm =>
        let rows :=
          (match dfFb with
            | some d => if dfIsEmpty d then [] else fbRows d pm tm
            | none => []) ++
          (match dfUs with
            | some d => if dfIsEmpty d then [] else usRows d pm tm
            | none => [])
        if rows.isEmpty then PyResult.ok ⟨statsCols, []⟩
        else PyResult.ok ⟨statsCols, (aggregateRows rows).map srowCells⟩

/-! ### Season and league identifiers (main.py lines 102-137) -/

def joinUnderscoreWords : List Str → Str
  | [] => []
  | [w] => w
  | w :: ws => w ++ 95 :: joinUnderscoreWords ws

/-- Embedding of `make_league_id` (main.py lines 102-108): lower-case the
league name, fold Turkish characters, replace every character that is not
alphanumeric or a space by a space, underscore-join the words, and
prepend the country code and the level. -/
def make_league_id (countryCode leagueName : Str) (level : Int) : Str :=
  let safe := ((leagueName.map pyLower).map turkishFold).map
    (fun c => if pyIsAlnum c || c == 32 then c else 32)
  countryCode ++ [95] ++ intToStr level ++ [95] ++
    joinUnderscoreWords (pyWords safe)

/-- Embedding of `make_season_id` (main.py lines 111-112). -/
def make_season_id (leagueId : Str) (startYear : Int) : Str :=
  leagueId ++ [95, 95] ++ intToStr startYear ++ [95] ++ intToStr (startYear + 1)

/-- Leftmost four-consecutive-digit run, as found by
`re.search(r"(\d{4})", s)`. -/
def search4 : Str → Option Nat
  | a :: b :: c :: d :: rest =>
    if isDigitC a && isDigitC b && isDigitC c && isDigitC d then
      some (digitsVal [a, b, c, d])
    else search4 (b :: c :: d :: rest)
  | _ => none

/-- Embedding of `parse_understat_season_start_year` (main.py lines
117-137): `None` maps to `None`; a stripped 4-digit string is decoded by
the two-digit pivot (first half below 50 means the 2000s, otherwise the
1900s); anything else falls back to the first 4-digit run, if any. -/
def parse_understat_season_start_year (val : Option Cell) : Option Int :=
  match val with
  | none => none
  | some v =>
    let s := pyStrip (pyStr v)
    if s.length = 4 ∧ s.all isDigitC then
      let yy := digitsVal (s.take 2)
      some (((if yy < 50 then 2000 else 1900) : Int) + yy)
    else
      match search4 s with
      | some y => some (y : Int)
      | none => none

/-- Two-digit zero-padded decimal rendering. -/
def pad2 (n : Nat) : Str := [48 + n / 10 % 10, 48 + n % 10]

/-- The 4-digit compact season code used by understat: the last two
digits of the start year followed by the last two digits of the next
year (2019 encodes as "1920").  This is the `compact_code` inverse
encoding named by the spec's round-trip property. -/
def compact_code (y : Nat) : Str := pad2 (y % 100) ++ pad2 ((y + 1) % 100)

/-! ### Claim theorems -/

/-- The MD5 embedding matches the RFC 1321 test vectors for the empty
message and "abc", and `_stable_id` reproduces the hashlib-derived id for
a concrete key. -/
theorem md5_known_vectors :
    md5Hex [] = codes "d41d8cd98f00b204e9800998ecf8427e" ∧
    md5Hex (utf8Encode (codes "abc")) =
      codes "900150983cd24fb0d6963f7d28e17f72" ∧
    stable_id (codes "PLAYER") (codes "jose_martinez") =
      codes "PLAYER_80e28ed49577" := by decide

/-- Concrete behavior of the two canonicalizers on a diacritic, Turkish
and punctuation sample. -/
theorem canonicalizer_samples :
    standardize_name (codes "José  Martínez ") = codes "josé martínez" ∧
    pySlug (codes " José Martínez ") = codes "jos_martnez" ∧
    pySlug (codes "Şırnak Öz-Çağ!") = codes "sirnak_ozcag" := by decide

/-- C1 counterexample: the names "José Martínez" and "Jose Martinez" do
NOT canonicalize to the same key: both `standardize_name` and `_slug`
fold only the six Turkish characters, so é and í survive lowering and are
kept by `standardize_name` and deleted by `_slug`, producing different
keys in both canonicalizers. -/
theorem c1_counterexample :
    pySlug (codes "José Martínez") ≠ pySlug (codes "Jose Martinez") ∧
    standardize_name (codes "José Martínez") ≠
      standardize_name (codes "Jose Martinez") := by decide

/-- C1 amended: the canonicalizer sends "José Martínez" to "jos_martnez"
(diacritics deleted, not folded) and "Jose Martinez" to "jose_martinez",
so the two names have different canonical keys and `_stable_id` assigns
them different player IDs. -/
theorem c1_amended :
    pySlug (codes "José Martínez") = codes "jos_martnez" ∧
    pySlug (codes "Jose Martinez") = codes "jose_martinez" ∧
    stable_id (codes "PLAYER") (pySlug (codes "José Martínez")) ≠
      stable_id (codes "PLAYER") (pySlug (codes "Jose Martinez")) := by decide

/-! ### Helper lemmas on first-occurrence deduplication -/

theorem dedupByKeyGo_map_key {α β : Type} [DecidableEq β] (key : α → β) :
    ∀ (l : List α) (seen : List β),
      (dedupByKeyGo key seen l).map key = dedupByKeyGo id seen (l.map key) := by
  intro l
  induction l with
  | nil => intro seen; rfl
  | cons x xs ih =>
    intro seen
    by_cases hx : key x ∈ seen
    · simp [dedupByKeyGo, hx, ih]
    · simp [dedupByKeyGo, hx, ih]

theorem mem_dedupByKeyGo_key {α β : Type} [DecidableEq β] (key : α → β) (b : β) :
    ∀ (l : List α) (seen : List β),
      b ∈ (dedupByKeyGo key seen l).map key ↔ b ∈ l.map key ∧ b ∉ seen := by
  intro l
  induction l with
  | nil => intro seen; simp [dedupByKeyGo]
  | cons x xs ih =>
    intro seen
    by_cases hx : key x ∈ seen
    · rw [show dedupByKeyGo key seen (x :: xs) = dedupByKeyGo key seen xs from by
        simp [dedupByKeyGo, hx]]
      rw [ih seen]
      simp only [List.map_cons, List.mem_cons]
      constructor
      · rintro ⟨hb, hs⟩
        exact ⟨Or.inr hb, hs⟩
      · rintro ⟨hb | hb, hs⟩
        · subst hb
          exact absurd hx hs
        · exact ⟨hb, hs⟩
    · rw [show dedupByKeyGo key seen (x :: xs) =
          x :: dedupByKeyGo key (key x :: seen) xs from by simp [dedupByKeyGo, hx]]
      simp only [List.map_cons, List.mem_cons]
      rw [ih (key x :: seen)]
      constructor
      · rintro (hb | ⟨hb, hs⟩)
        · subst hb
          exact ⟨Or.inl rfl, hx⟩
        · refine ⟨Or.inr hb, ?_⟩
          intro hbs
          exact hs (List.mem_cons_of_mem _ hbs)
      · rintro ⟨hb | hb, hs⟩
        · exact Or.inl hb
        · by_cases hbx : b = key x
          · exact Or.inl hbx
          · refine Or.inr ⟨hb, ?_⟩
            intro hmem
            rcases List.mem_cons.mp hmem with h1 | h1
            · exact hbx h1
            · exact hs h1

theorem nodup_dedupByKeyGo_keys {α β : Type} [DecidableEq β] (key : α → β) :
    ∀ (l : List α) (seen : List β), ((dedupByKeyGo key seen l).map key).Nodup := by
  intro l
  induction l with
  | nil => intro seen; simp [dedupByKeyGo]
  | cons x xs ih =>
    intro seen
    by_cases hx : key x ∈ seen
    · simpa [dedupByKeyGo, hx] using ih seen
    · rw [show dedupByKeyGo key seen (x :: xs) =
          x :: dedupByKeyGo key (key x :: seen) xs from by simp [dedupByKeyGo, hx]]
      simp only [List.map_cons, List.nodup_cons]
      refine ⟨?_, ih (key x :: seen)⟩
      intro hmem
      have hm := (mem_dedupByKeyGo_key key (key x) xs (key x :: seen)).mp hmem
      exact hm.2 (List.mem_cons_self _ _)

theorem countP_eq_one_nodup {α : Type} [DecidableEq α] (a : α) :
    ∀ (l : List α), l.Nodup → a ∈ l →
      l.countP (fun b => decide (b = a)) = 1 := by
  intro l
  induction l with
  | nil => intro _ ha; cases ha
  | cons x xs ih =>
    intro hn ha
    rw [List.countP_cons]
    rcases List.mem_cons.mp ha with h | h
    · subst h
      have h0 : xs.countP (fun b => decide (b = a)) = 0 := by
        rw [List.countP_eq_zero]
        intro b hb hbe
        have hba : b = a := of_decide_eq_true hbe
        subst hba
        exact (List.nodup_cons.mp hn).1 hb
      simp [h0]
    · have hxa : ¬ (x = a) := by
        intro e
        subst e
        exact (List.nodup_cons.mp hn).1 h
      rw [ih (List.nodup_cons.mp hn).2 h]
      simp [hxa]

theorem map_fix {α : Type} (f : α → α) :
    ∀ (l : List α), (∀ a ∈ l, f a = a) → l.map f = l := by
  intro l h
  induction l with
  | nil => rfl
  | cons x xs ih =>
    rw [List.map_cons, h x (List.mem_cons_self x xs),
      ih (fun a ha => h a (List.mem_cons_of_mem _ ha))]

theorem map_congr_fn {α β : Type} (f g : α → β) :
    ∀ (l : List α), (∀ a ∈ l, f a = g a) → l.map f = l.map g := by
  intro l h
  induction l with
  | nil => rfl
  | cons x xs ih =>
    rw [List.map_cons, List.map_cons, h x (List.mem_cons_self x xs),
      ih (fun a ha => h a (List.mem_cons_of_mem _ ha))]

theorem filter_fix {α : Type} (p : α → Bool) :
    ∀ (l : List α), (∀ a ∈ l, p a = true) → l.filter p = l := by
  intro l h
  induction l with
  | nil => rfl
  | cons x xs ih =>
    rw [List.filter_cons, if_pos (h x (List.mem_cons_self x xs)),
      ih (fun a ha => h a (List.mem_cons_of_mem _ ha))]

theorem pick_col_some_not_empty (df : DF) (cands : List Str) (j : Nat)
    (h : pick_col df cands = some j) : dfIsEmpty df = false := by
  cases he : dfIsEmpty df with
  | false => rfl
  | true =>
    unfold pick_col at h
    rw [he] at h
    simp at h

/-- A row projected by the fact merger resolved its `player_id` by
looking up the raw stringified player name — not a canonicalized form —
in the stored-name-to-id dict. -/
theorem projectRow_player_lookup (pm tm : List (Cell × Cell)) (ctx : StatCtx)
    (r : List Cell) (srow : SRow) (h : projectRow pm tm ctx r = some srow) :
    pyDictLookup pm (Cell.s (rawPlayerName ctx r)) = some srow.player_id := by
  cases hl : pyDictLookup pm (Cell.s (rawPlayerName ctx r)) with
  | none => simp [projectRow, hl] at h
  | some pid =>
    simp only [projectRow, hl] at h
    by_cases hn : pid = Cell.nan
    · rw [if_pos hn] at h
      exact absurd h (by simp)
    · rw [if_neg hn] at h
      have e := Option.some.inj h
      rw [← e]

/-- C2 counterexample: "Jose Martinez" and "JOSE MARTINEZ" differ only in
case and have equal canonical forms under both canonicalizers, yet with a
catalog storing "Jose Martinez" -> P1 the upper-cased row does not
resolve to P1 — it is dropped, because the lookup uses the raw name, not
the canonicalized one: the output retains only the first row. -/
theorem c2_counterexample :
    pySlug (codes "JOSE MARTINEZ") = pySlug (codes "Jose Martinez") ∧
    standardize_name (codes "JOSE MARTINEZ") =
      standardize_name (codes "Jose Martinez") ∧
    build_player_season_stats
      (some ⟨[codes "player", codes "season"],
        [[Cell.s (codes "Jose Martinez"), Cell.s (codes "2019")],
         [Cell.s (codes "JOSE MARTINEZ"), Cell.s (codes "2020")]]⟩)
      none
      (some ⟨[codes "id", codes "name"],
        [[Cell.s (codes "P1"), Cell.s (codes "Jose Martinez")]]⟩)
      none =
    PyResult.ok ⟨statsCols,
      [[Cell.s (codes "P1"), Cell.s [], Cell.s (codes "2019"),
        Cell.i 0, Cell.i 0, Cell.f 0, Cell.i 0]]⟩ := by decide

/-- C2 amended: for every input row of the fact merger, `player_id` is
resolved by looking up the row's *raw* stringified player name in the
map built from the catalog's stored original names
(`dict(zip(players_df["name"], players_df["id"]))`); rows whose raw
names are equal as strings therefore resolve to the same `player_id`,
but rows differing only in case or diacritics miss the lookup and are
dropped (as the counterexample shows). -/
theorem c2_amended :
    (∀ pm tm ctx r srow, projectRow pm tm ctx r = some srow →
      pyDictLookup pm (Cell.s (rawPlayerName ctx r)) = some srow.player_id) ∧
    (∀ pm tm ctx r1 r2 s1 s2, rawPlayerName ctx r1 = rawPlayerName ctx r2 →
      projectRow pm tm ctx r1 = some s1 → projectRow pm tm ctx r2 = some s2 →
      s1.player_id = s2.player_id) := by
  constructor
  · exact projectRow_player_lookup
  · intro pm tm ctx r1 r2 s1 s2 hname h1 h2
    have e1 := projectRow_player_lookup pm tm ctx r1 s1 h1
    have e2 := projectRow_player_lookup pm tm ctx r2 s2 h2
    rw [hname] at e1
    rw [e1] at e2
    exact Option.some.inj e2

/-- C2 witness: the lookup characterization applied to a concrete
one-column row and one-entry catalog map. -/
theorem c2_witness :
    pyDictLookup [(Cell.s (codes "Jose Martinez"), Cell.s (codes "P1"))]
      (Cell.s (rawPlayerName ⟨some 0, none, none, none, none, none, none⟩
        [Cell.s (codes "Jose Martinez")])) =
      some (SRow.player_id ⟨Cell.s (codes "P1"), Cell.s [], [], 0, 0, 0, 0⟩) :=
  c2_amended.1 [(Cell.s (codes "Jose Martinez"), Cell.s (codes "P1"))] []
    ⟨some 0, none, none, none, none, none, none⟩
    [Cell.s (codes "Jose Martinez")]
    ⟨Cell.s (codes "P1"), Cell.s [], [], 0, 0, 0, 0⟩ (by decide)

/-- C3 counterexample: in the §8 scenario the fact row built from a
primary-source extract with season value "1920" is emitted with
`season_id = "1920"` — the bare string of the first four-digit run — and
not the canonical season key "ENG_1_premier_league__2019_2020". -/
theorem c3_counterexample :
    build_player_season_stats
      (some ⟨[codes "player", codes "squad", codes "season", codes "minutes",
              codes "goals"],
        [[Cell.s (codes "Raúl García"), Cell.s (codes "Arsenal"),
          Cell.s (codes "1920"), Cell.i 900, Cell.i 5]]⟩)
      none
      (some ⟨[codes "id", codes "name"],
        [[Cell.s (codes "P1"), Cell.s (codes "Raúl García")]]⟩)
      (some ⟨[codes "id", codes "name"],
        [[Cell.s (codes "T1"), Cell.s (codes "Arsenal")]]⟩) =
    PyResult.ok ⟨statsCols,
      [[Cell.s (codes "P1"), Cell.s (codes "T1"), Cell.s (codes "1920"),
        Cell.i 900, Cell.i 5, Cell.f 0, Cell.i 0]]⟩ ∧
    codes "1920" ≠ codes "ENG_1_premier_league__2019_2020" := by decide

/-- C3 amended: in the §8 scenario the emitted `player_season_stats` row
has `season_id = "1920"` (`build_player_season_stats` stringifies the
year parsed from the raw season value and never applies
`make_season_id`), while the canonical season key for that league and
year — as built by `make_season_id` over `make_league_id` and used for
the `seasons` table — is "ENG_1_premier_league__2019_2020". -/
theorem c3_amended :
    (match build_player_season_stats
      (some ⟨[codes "player", codes "squad", codes "season", codes "minutes",
              codes "goals"],
        [[Cell.s (codes "Raúl García"), Cell.s (codes "Arsenal"),
          Cell.s (codes "1920"), Cell.i 900, Cell.i 5]]⟩)
      none
      (some ⟨[codes "id", codes "name"],
        [[Cell.s (codes "P1"), Cell.s (codes "Raúl García")]]⟩)
      (some ⟨[codes "id", codes "name"],
        [[Cell.s (codes "T1"), Cell.s (codes "Arsenal")]]⟩) with
     | PyResult.ok df => df.rows.map (fun r => r.getD 2 Cell.nan)
     | PyResult.exn _ => []) = [Cell.s (codes "1920")] ∧
    make_season_id (make_league_id (codes "ENG") (codes "Premier League") 1)
      2019 = codes "ENG_1_premier_league__2019_2020" := by decide

/-- C5: at the failing input — a fact row whose player resolves but whose
team name "Y" misses a non-empty team catalog — the code drops the whole
row: the dict miss makes `team_id` NaN, the `(x or "")` fallback keeps
NaN because NaN is truthy, and `groupby` silently excludes the NaN key.
A player-name miss drops the row too (as the claim says), and an *empty*
team catalog does yield `team_id = ""` with the row retained, which shows
the intended degraded behavior the `or ""` was written for. -/
theorem c5_code_bug_evidence :
    build_player_season_stats
      (some ⟨[codes "player", codes "team", codes "season", codes "goals"],
        [[Cell.s (codes "A"), Cell.s (codes "Y"), Cell.s (codes "2019"),
          Cell.i 3]]⟩)
      none
      (some ⟨[codes "id", codes "name"],
        [[Cell.s (codes "P1"), Cell.s (codes "A")]]⟩)
      (some ⟨[codes "id", codes "name"],
        [[Cell.s (codes "T1"), Cell.s (codes "X")]]⟩) =
      PyResult.ok ⟨statsCols, []⟩ ∧
    build_player_season_stats
      (some ⟨[codes "player", codes "team", codes "season", codes "goals"],
        [[Cell.s (codes "B"), Cell.s (codes "X"), Cell.s (codes "2019"),
          Cell.i 3]]⟩)
      none
      (some ⟨[codes "id", codes "name"],
        [[Cell.s (codes "P1"), Cell.s (codes "A")]]⟩)
      (some ⟨[codes "id", codes "name"],
        [[Cell.s (codes "T1"), Cell.s (codes "X")]]⟩) =
      PyResult.ok ⟨statsCols, []⟩ ∧
    build_player_season_stats
      (some ⟨[codes "player", codes "team", codes "season", codes "goals"],
        [[Cell.s (codes "A"), Cell.s (codes "Y"), Cell.s (codes "2019"),
          Cell.i 3]]⟩)
      none
      (some ⟨[codes "id", codes "name"],
        [[Cell.s (codes "P1"), Cell.s (codes "A")]]⟩)
      none =
      PyResult.ok ⟨statsCols,
        [[Cell.s (codes "P1"), Cell.s [], Cell.s (codes "2019"),
          Cell.i 0, Cell.i 3, Cell.f 0, Cell.i 0]]⟩ := by decide

/-- C6 counterexample: the compact code of 2050 is "5051"; its first
half 50 is not below the pivot, so the resolver returns 1950, not 2050 —
the claimed round-trip fails on [2050, 2099]. -/
theorem c6_counterexample :
    parse_understat_season_start_year (some (Cell.s (compact_code 2050))) =
      some 1950 ∧ (1950 : Int) ≠ 2050 := by decide

/-- C6 amended: the round-trip holds on [1990, 2049]: decoding the
compact season code of any such start year returns that year (the
two-digit pivot at 50 maps 90-99 to the 1900s and 0-49 to the 2000s). -/
theorem c6_amended (y : Nat) (h1 : 1990 ≤ y) (h2 : y ≤ 2049) :
    parse_understat_season_start_year (some (Cell.s (compact_code y))) =
      some (y : Int) := by
  interval_cases y <;> decide

/-- C6 witness: the round-trip at 2019. -/
theorem c6_witness :
    parse_understat_season_start_year (some (Cell.s (compact_code 2019))) =
      some (2019 : Int) := c6_amended 2019 (by decide) (by decide)
/-- C4: whenever two or more projected fact rows (with group keys that
`groupby` keeps) share the same `(player_id, team_id, season_id)` key,
the aggregation step of `build_player_season_stats` emits exactly one
merged row for that key and its numeric fields `minutes`, `goals`,
`assists`, `xg` are the maxima of those fields over the shared rows —
not their sums. -/
theorem c4_max_merge (rs : List SRow) (k : Cell × Cell × Str)
    (h2 : 2 ≤ ((rs.filter keyValid).filter
      (fun r => decide (rowKey r = k))).length) :
    (aggregateRows rs).countP (fun r => decide (rowKey r = k)) = 1 ∧
    ∃ r, r ∈ aggregateRows rs ∧ rowKey r = k ∧
      r.minutes = maxIntD (((rs.filter keyValid).filter
        (fun r => decide (rowKey r = k))).map SRow.minutes) ∧
      r.goals = maxIntD (((rs.filter keyValid).filter
        (fun r => decide (rowKey r = k))).map SRow.goals) ∧
      r.assists = maxIntD (((rs.filter keyValid).filter
        (fun r => decide (rowKey r = k))).map SRow.assists) ∧
      r.xg = maxRatD (((rs.filter keyValid).filter
        (fun r => decide (rowKey r = k))).map SRow.xg) := by
  have hne : ((rs.filter keyValid).filter
      (fun r => decide (rowKey r = k))) ≠ [] := by
    intro e
    rw [e] at h2
    simp at h2
  obtain ⟨r0, hr0⟩ := List.exists_mem_of_ne_nil _ hne
  have hr0f := List.mem_filter.mp hr0
  have hkmem : k ∈ (rs.filter keyValid).map rowKey := by
    have hk0 : rowKey r0 = k := of_decide_eq_true hr0f.2
    rw [← hk0]
    exact List.mem_map_of_mem _ hr0f.1
  have hkm : k ∈ dedupFirst ((rs.filter keyValid).map rowKey) := by
    have h1 := (mem_dedupByKeyGo_key (id : (Cell × Cell × Str) → _) k
      ((rs.filter keyValid).map rowKey) []).mpr ⟨by simpa using hkmem, by simp⟩
    simpa [dedupFirst, dedupByKey] using h1
  have hnd : (dedupFirst ((rs.filter keyValid).map rowKey)).Nodup := by
    have h1 := nodup_dedupByKeyGo_keys (id : (Cell × Cell × Str) → _)
      ((rs.filter keyValid).map rowKey) []
    simpa [dedupFirst, dedupByKey] using h1
  constructor
  · simp only [aggregateRows]
    rw [List.countP_map]
    have hfun : ((fun r => decide (rowKey r = k)) ∘ fun k2 =>
        aggRow ((rs.filter keyValid).filter
          (fun r => decide (rowKey r = k2))) k2) =
        fun k2 => decide (k2 = k) := by
      funext k2
      rfl
    rw [hfun]
    exact countP_eq_one_nodup k _ hnd hkm
  · refine ⟨aggRow ((rs.filter keyValid).filter
      (fun r => decide (rowKey r = k))) k, ?_, rfl, rfl, rfl, rfl, rfl⟩
    simp only [aggregateRows]
    exact List.mem_map_of_mem _ hkm

/-- C4 witness: two valid projected rows sharing a key, with goals 5 and
8, minutes 10 and 20, assists 1 and 0, xg 1 and 2; the merge keeps one
row whose fields are the maxima, and in particular the merged goals value
is 8 (not 13). -/
theorem c4_witness :
    ((aggregateRows
      [⟨Cell.s (codes "P1"), Cell.s (codes "T1"), codes "2019", 10, 5, 1, 1⟩,
       ⟨Cell.s (codes "P1"), Cell.s (codes "T1"), codes "2019", 20, 8, 0, 2⟩]).countP
      (fun r => decide (rowKey r =
        (Cell.s (codes "P1"), Cell.s (codes "T1"), codes "2019"))) = 1 ∧
    ∃ r, r ∈ aggregateRows
      [⟨Cell.s (codes "P1"), Cell.s (codes "T1"), codes "2019", 10, 5, 1, 1⟩,
       ⟨Cell.s (codes "P1"), Cell.s (codes "T1"), codes "2019", 20, 8, 0, 2⟩] ∧
      rowKey r = (Cell.s (codes "P1"), Cell.s (codes "T1"), codes "2019") ∧
      r.minutes = maxIntD ((([
        ⟨Cell.s (codes "P1"), Cell.s (codes "T1"), codes "2019", 10, 5, 1, 1⟩,
        ⟨Cell.s (codes "P1"), Cell.s (codes "T1"), codes "2019", 20, 8, 0, 2⟩].filter
          keyValid).filter (fun r => decide (rowKey r =
            (Cell.s (codes "P1"), Cell.s (codes "T1"), codes "2019")))).map
              SRow.minutes) ∧
      r.goals = maxIntD ((([
        ⟨Cell.s (codes "P1"), Cell.s (codes "T1"), codes "2019", 10, 5, 1, 1⟩,
        ⟨Cell.s (codes "P1"), Cell.s (codes "T1"), codes "2019", 20, 8, 0, 2⟩].filter
          keyValid).filter (fun r => decide (rowKey r =
            (Cell.s (codes "P1"), Cell.s (codes "T1"), codes "2019")))).map
              SRow.goals) ∧
      r.assists = maxIntD ((([
        ⟨Cell.s (codes "P1"), Cell.s (codes "T1"), codes "2019", 10, 5, 1, 1⟩,
        ⟨Cell.s (codes "P1"), Cell.s (codes "T1"), codes "2019", 20, 8, 0, 2⟩].filter
          keyValid).filter (fun r => decide (rowKey r =
            (Cell.s (codes "P1"), Cell.s (codes "T1"), codes "2019")))).map
              SRow.assists) ∧
      r.xg = maxRatD ((([
        ⟨Cell.s (codes "P1"), Cell.s (codes "T1"), codes "2019", 10, 5, 1, 1⟩,
        ⟨Cell.s (codes "P1"), Cell.s (codes "T1"), codes "2019", 20, 8, 0, 2⟩].filter
          keyValid).filter (fun r => decide (rowKey r =
            (Cell.s (codes "P1"), Cell.s (codes "T1"), codes "2019")))).map
              SRow.xg)) ∧
    maxIntD ((([
      ⟨Cell.s (codes "P1"), Cell.s (codes "T1"), codes "2019", 10, 5, 1, 1⟩,
      ⟨Cell.s (codes "P1"), Cell.s (codes "T1"), codes "2019", 20, 8, 0, 2⟩].filter
        keyValid).filter (fun r => decide (rowKey r =
          (Cell.s (codes "P1"), Cell.s (codes "T1"), codes "2019")))).map
            SRow.goals) = 8 :=
  ⟨c4_max_merge
    [⟨Cell.s (codes "P1"), Cell.s (codes "T1"), codes "2019", 10, 5, 1, 1⟩,
     ⟨Cell.s (codes "P1"), Cell.s (codes "T1"), codes "2019", 20, 8, 0, 2⟩]
    (Cell.s (codes "P1"), Cell.s (codes "T1"), codes "2019") (by decide),
   by decide⟩

/-- The stored name column of the FBref team catalog is the
first-occurrence deduplication of the exact (raw) squad cell values. -/
theorem teams_fbref_names (df : DF) (j : Nat)
    (h : pick_col df [codes "squad", codes "team", codes "squad_name"] = some j) :
    (build_teams_from_fbref (some df)).rows.map (fun r => r.getD 1 Cell.nan) =
      dedupFirst (df.rows.map (fun r => r.getD j Cell.nan)) := by
  have hne := pick_col_some_not_empty df _ j h
  simp only [build_teams_from_fbref, hne, h, Bool.false_eq_true, if_false]
  rw [List.map_map]
  exact map_fix _ _ (fun n _ => rfl)

/-- The stored name column of the FBref player catalog is the
first-occurrence deduplication of the exact (raw) player cell values. -/
theorem players_fbref_names (df : DF) (j : Nat)
    (h : pick_col df [codes "player", codes "player_name", codes "name"] = some j) :
    (build_players_from_fbref (some df)).rows.map (fun r => r.getD 1 Cell.nan) =
      dedupFirst (df.rows.map (fun r => r.getD j Cell.nan)) := by
  have hne := pick_col_some_not_empty df _ j h
  simp only [build_players_from_fbref, hne, h, Bool.false_eq_true, if_false]
  rw [List.map_map]
  refine (map_congr_fn _ (fun r : List Cell => r.getD j Cell.nan) _
    (fun r _ => rfl)).trans ?_
  rw [show (dedupByKey (fun r : List Cell => r.getD j Cell.nan) df.rows).map
        (fun r => r.getD j Cell.nan) =
      dedupByKeyGo id [] (df.rows.map (fun r => r.getD j Cell.nan)) from
    dedupByKeyGo_map_key _ df.rows []]
  rfl

/-- The stored name column of the understat team catalog is the
first-occurrence deduplication of the exact team cell values (after
column-label dedup). -/
theorem teams_us_names (df : DF) (j : Nat) (hne : dfIsEmpty df = false)
    (h : (dedupCols df).cols.findIdx? (fun c => decide (c = codes "team")) =
      some j) :
    (build_teams_from_understat (some df)).rows.map
      (fun r => r.getD 1 Cell.nan) =
      dedupFirst ((dedupCols df).rows.map (fun r => r.getD j Cell.nan)) := by
  simp only [build_teams_from_understat, hne, h, Bool.false_eq_true, if_false]
  rw [List.map_map]
  exact map_fix _ _ (fun n _ => rfl)

/-- The stored name column of the understat player catalog is the
first-occurrence deduplication of the exact player cell values (after
column-label dedup). -/
theorem players_us_names (df : DF) (j : Nat) (hne : dfIsEmpty df = false)
    (h : (dedupCols df).cols.findIdx? (fun c => decide (c = codes "player")) =
      some j) :
    (build_players_from_understat (some df)).rows.map
      (fun r => r.getD 1 Cell.nan) =
      dedupFirst ((dedupCols df).rows.map (fun r => r.getD j Cell.nan)) := by
  simp only [build_players_from_understat, hne, h, Bool.false_eq_true, if_false]
  rw [List.map_map]
  refine (map_congr_fn _ (fun r : List Cell => r.getD j Cell.nan) _
    (fun r _ => rfl)).trans ?_
  rw [show (dedupByKey (fun r : List Cell => r.getD j Cell.nan)
        (dedupCols df).rows).map (fun r => r.getD j Cell.nan) =
      dedupByKeyGo id [] ((dedupCols df).rows.map (fun r => r.getD j Cell.nan)) from
    dedupByKeyGo_map_key _ (dedupCols df).rows []]
  rfl

/-- C7 counterexample: "Arsenal" and "ARSENAL" have equal canonical
forms, yet the FBref team builder keeps both rows — deduplication is by
exact raw name, not by canonical name, so the pair gets two catalog rows
(which even share the same generated id). -/
theorem c7_counterexample :
    pySlug (pyStr (Cell.s (codes "ARSENAL"))) =
      pySlug (pyStr (Cell.s (codes "Arsenal"))) ∧
    (build_teams_from_fbref (some ⟨[codes "squad"],
      [[Cell.s (codes "Arsenal")], [Cell.s (codes "ARSENAL")]]⟩)).rows.map
      (fun r => r.getD 1 Cell.nan) =
      [Cell.s (codes "Arsenal"), Cell.s (codes "ARSENAL")] ∧
    (build_teams_from_fbref (some ⟨[codes "squad"],
      [[Cell.s (codes "Arsenal")], [Cell.s (codes "ARSENAL")]]⟩)).rows.map
      (fun r => r.getD 0 Cell.nan) =
      [Cell.s (codes "TEAM_1c5442c0461e"), Cell.s (codes "TEAM_1c5442c0461e")] := by
  decide

/-- C7 amended: the entity builders deduplicate catalog entries by the
*exact raw* name value, keeping the first occurrence: for each of the
four builders, the stored name column equals the first-occurrence
deduplication of the raw name cells (so exact duplicates collapse to one
row storing the first-seen original-cased form, while names equal only
after canonicalization produce separate rows that share a generated id). -/
theorem c7_amended :
    (∀ (df : DF) (j : Nat),
      pick_col df [codes "squad", codes "team", codes "squad_name"] = some j →
      (build_teams_from_fbref (some df)).rows.map (fun r => r.getD 1 Cell.nan) =
        dedupFirst (df.rows.map (fun r => r.getD j Cell.nan))) ∧
    (∀ (df : DF) (j : Nat),
      pick_col df [codes "player", codes "player_name", codes "name"] = some j →
      (build_players_from_fbref (some df)).rows.map (fun r => r.getD 1 Cell.nan) =
        dedupFirst (df.rows.map (fun r => r.getD j Cell.nan))) ∧
    (∀ (df : DF) (j : Nat), dfIsEmpty df = false →
      (dedupCols df).cols.findIdx? (fun c => decide (c = codes "team")) = some j →
      (build_teams_from_understat (some df)).rows.map
        (fun r => r.getD 1 Cell.nan) =
        dedupFirst ((dedupCols df).rows.map (fun r => r.getD j Cell.nan))) ∧
    (∀ (df : DF) (j : Nat), dfIsEmpty df = false →
      (dedupCols df).cols.findIdx? (fun c => decide (c = codes "player")) = some j →
      (build_players_from_understat (some df)).rows.map
        (fun r => r.getD 1 Cell.nan) =
        dedupFirst ((dedupCols df).rows.map (fun r => r.getD j Cell.nan))) :=
  ⟨teams_fbref_names, players_fbref_names, teams_us_names, players_us_names⟩

/-- C7 witness: the four builder clauses instantiated on concrete frames
with duplicate raw names. -/
theorem c7_witness :
    ((build_teams_from_fbref (some ⟨[codes "squad"],
      [[Cell.s (codes "A")], [Cell.s (codes "A")], [Cell.s (codes "B")]]⟩)).rows.map
      (fun r => r.getD 1 Cell.nan) =
      dedupFirst ((⟨[codes "squad"],
        [[Cell.s (codes "A")], [Cell.s (codes "A")], [Cell.s (codes "B")]]⟩ : DF).rows.map
        (fun r => r.getD 0 Cell.nan))) ∧
    ((build_players_from_fbref (some ⟨[codes "player"],
      [[Cell.s (codes "X")], [Cell.s (codes "X")]]⟩)).rows.map
      (fun r => r.getD 1 Cell.nan) =
      dedupFirst ((⟨[codes "player"],
        [[Cell.s (codes "X")], [Cell.s (codes "X")]]⟩ : DF).rows.map
        (fun r => r.getD 0 Cell.nan))) ∧
    ((build_teams_from_understat (some ⟨[codes "team"],
      [[Cell.s (codes "A")]]⟩)).rows.map (fun r => r.getD 1 Cell.nan) =
      dedupFirst ((dedupCols ⟨[codes "team"], [[Cell.s (codes "A")]]⟩).rows.map
        (fun r => r.getD 0 Cell.nan))) ∧
    ((build_players_from_understat (some ⟨[codes "player"],
      [[Cell.s (codes "X")]]⟩)).rows.map (fun r => r.getD 1 Cell.nan) =
      dedupFirst ((dedupCols ⟨[codes "player"], [[Cell.s (codes "X")]]⟩).rows.map
        (fun r => r.getD 0 Cell.nan))) :=
  ⟨c7_amended.1 _ 0 (by decide), c7_amended.2.1 _ 0 (by decide),
   c7_amended.2.2.1 _ 0 (by decide) (by decide),
   c7_amended.2.2.2 _ 0 (by decide) (by decide)⟩

/-! ### Hash-shape lemmas for the stable-id claims -/

theorem flatten_map_byteHex_length :
    ∀ (bs : List Nat), ((bs.map byteHex).flatten).length = 2 * bs.length := by
  intro bs
  induction bs with
  | nil => rfl
  | cons b bs ih =>
    simp only [List.map_cons, List.flatten_cons, List.length_append, ih,
      List.length_cons]
    simp [byteHex]
    omega

theorem md5Bytes_length (msg : List Nat) : (md5Bytes msg).length = 16 := by
  simp [md5Bytes, le4]

theorem le4_lt (x : Nat) : ∀ b ∈ le4 x, b < 256 := by
  intro b hb
  simp [le4] at hb
  rcases hb with rfl | rfl | rfl | rfl <;> omega

theorem md5Bytes_lt (msg : List Nat) : ∀ b ∈ md5Bytes msg, b < 256 := by
  intro b hb
  simp only [md5Bytes, List.mem_append] at hb
  rcases hb with ((h | h) | h) | h <;> exact le4_lt _ _ h

theorem hexDigit_hex (n : Nat) (h : n < 16) :
    (48 ≤ hexDigit n ∧ hexDigit n ≤ 57) ∨
    (97 ≤ hexDigit n ∧ hexDigit n ≤ 102) := by
  unfold hexDigit
  split_ifs with h2
  · left
    omega
  · right
    omega

theorem mem_byteHex_hex (b : Nat) (hb : b < 256) :
    ∀ c ∈ byteHex b, (48 ≤ c ∧ c ≤ 57) ∨ (97 ≤ c ∧ c ≤ 102) := by
  intro c hc
  simp [byteHex] at hc
  rcases hc with rfl | rfl
  · exact hexDigit_hex _ (by omega)
  · exact hexDigit_hex _ (by omega)

theorem md5Hex_length (msg : List Nat) : (md5Hex msg).length = 32 := by
  unfold md5Hex
  rw [flatten_map_byteHex_length, md5Bytes_length]

theorem mem_md5Hex_hex (msg : List Nat) :
    ∀ c ∈ md5Hex msg, (48 ≤ c ∧ c ≤ 57) ∨ (97 ≤ c ∧ c ≤ 102) := by
  intro c hc
  unfold md5Hex at hc
  rw [List.mem_flatten] at hc
  obtain ⟨w, hw, hcw⟩ := hc
  rw [List.mem_map] at hw
  obtain ⟨b, hb, rfl⟩ := hw
  exact mem_byteHex_hex b (md5Bytes_lt msg b hb) c hcw

/-- C8 counterexample: `_stable_id("PLAYER", "jose_martinez")` is
"PLAYER_80e28ed49577"; the canonical slug is not a segment of the ID, so
the ID is not the concatenation prefix + canonical_slug + hash_fragment
that the claim describes. -/
theorem c8_counterexample :
    stable_id (codes "PLAYER") (codes "jose_martinez") =
      codes "PLAYER_80e28ed49577" ∧
    (codes "PLAYER" ++ codes "jose_martinez").isPrefixOf
      (stable_id (codes "PLAYER") (codes "jose_martinez")) = false := by
  decide

/-- C8 amended: for every prefix and key, `_stable_id` returns the
prefix, an underscore, and a 12-hex-digit fragment of the MD5 of the
UTF-8 encoded key — the canonical slug is hashed but not embedded —
deterministically (the embedding is a pure function of its arguments,
mirroring the source, which uses no randomness or sequence counters). -/
theorem c8_amended (pre key : Str) :
    ∃ frag : Str, stable_id pre key = pre ++ [95] ++ frag ∧
      frag.length = 12 ∧
      ∀ c ∈ frag, (48 ≤ c ∧ c ≤ 57) ∨ (97 ≤ c ∧ c ≤ 102) := by
  refine ⟨(md5Hex (utf8Encode key)).take 12, rfl, ?_, ?_⟩
  · rw [List.length_take, md5Hex_length]
    decide
  · intro c hc
    exact mem_md5Hex_hex _ c (List.take_subset _ _ hc)

/-! ### Word-splitting lemmas for canonicalizer idempotence -/

theorem splitAll_cons (c : Nat) (cs : Str) :
    splitAll (c :: cs) =
      if isWsChar c then [] :: splitAll cs
      else
        match splitAll cs with
        | [] => [[c]]
        | w :: ws => (c :: w) :: ws := rfl

theorem splitAll_no_ws :
    ∀ (xs : Str) (w : Str), w ∈ splitAll xs → ∀ c ∈ w, isWsChar c = false := by
  intro xs
  induction xs with
  | nil => intro w hw; simp [splitAll] at hw
  | cons x xs ih =>
    intro w hw c hc
    rw [splitAll_cons] at hw
    by_cases hx : isWsChar x
    · rw [if_pos hx] at hw
      rcases List.mem_cons.mp hw with rfl | hw2
      · cases hc
      · exact ih w hw2 c hc
    · rw [if_neg hx] at hw
      cases hsa : splitAll xs with
      | nil =>
        rw [hsa] at hw
        simp at hw
        subst hw
        rcases List.mem_cons.mp hc with rfl | h0
        · simpa using hx
        · cases h0
      | cons w0 ws0 =>
        rw [hsa] at hw
        rcases List.mem_cons.mp hw with rfl | hw2
        · rcases List.mem_cons.mp hc with rfl | hc2
          · simpa using hx
          · exact ih w0 (by rw [hsa]; exact List.mem_cons_self _ _) c hc2
        · exact ih w (by rw [hsa]; exact List.mem_cons_of_mem _ hw2) c hc

theorem mem_splitAll_subset :
    ∀ (xs : Str) (w : Str), w ∈ splitAll xs → ∀ c ∈ w, c ∈ xs := by
  intro xs
  induction xs with
  | nil => intro w hw; simp [splitAll] at hw
  | cons x xs ih =>
    intro w hw c hc
    rw [splitAll_cons] at hw
    by_cases hx : isWsChar x
    · rw [if_pos hx] at hw
      rcases List.mem_cons.mp hw with rfl | hw2
      · cases hc
      · exact List.mem_cons_of_mem _ (ih w hw2 c hc)
    · rw [if_neg hx] at hw
      cases hsa : splitAll xs with
      | nil =>
        rw [hsa] at hw
        simp at hw
        subst hw
        rcases List.mem_cons.mp hc with rfl | h0
        · exact List.mem_cons_self _ _
        · cases h0
      | cons w0 ws0 =>
        rw [hsa] at hw
        rcases List.mem_cons.mp hw with rfl | hw2
        · rcases List.mem_cons.mp hc with rfl | hc2
          · exact List.mem_cons_self _ _
          · exact List.mem_cons_of_mem _
              (ih w0 (by rw [hsa]; exact List.mem_cons_self _ _) c hc2)
        · exact List.mem_cons_of_mem _
            (ih w (by rw [hsa]; exact List.mem_cons_of_mem _ hw2) c hc)

theorem splitAll_append_sep (w t : Str)
    (hw : ∀ c ∈ w, isWsChar c = false) :
    splitAll (w ++ 32 :: t) = w :: splitAll t := by
  induction w with
  | nil =>
    rw [List.nil_append, splitAll_cons, if_pos (by decide)]
  | cons x w2 ih =>
    have hx : isWsChar x = false := hw x (List.mem_cons_self _ _)
    rw [List.cons_append, splitAll_cons, if_neg (by simp [hx])]
    rw [ih (fun c hc => hw c (List.mem_cons_of_mem _ hc))]

theorem splitAll_no_sep :
    ∀ (w : Str), w ≠ [] → (∀ c ∈ w, isWsChar c = false) →
      splitAll w = [w] := by
  intro w
  induction w with
  | nil => intro hne; cases hne rfl
  | cons x w2 ih =>
    intro _ hw
    have hx : isWsChar x = false := hw x (List.mem_cons_self _ _)
    rw [splitAll_cons, if_neg (by simp [hx])]
    by_cases hw2 : w2 = []
    · subst hw2
      rfl
    · rw [ih hw2 (fun c hc => hw c (List.mem_cons_of_mem _ hc))]

theorem pyWords_joinWords :
    ∀ (ws : List Str),
      (∀ w ∈ ws, w ≠ [] ∧ ∀ c ∈ w, isWsChar c = false) →
      pyWords (joinWords ws) = ws := by
  intro ws
  induction ws with
  | nil => intro _; rfl
  | cons w ws2 ih =>
    intro h
    obtain ⟨hne, hnw⟩ := h w (List.mem_cons_self _ _)
    cases ws2 with
    | nil =>
      unfold pyWords
      rw [show joinWords [w] = w from rfl, splitAll_no_sep w hne hnw]
      rw [List.filter_cons, if_pos (by simpa using hne)]
      rfl
    | cons w2 ws3 =>
      unfold pyWords
      rw [show joinWords (w :: w2 :: ws3) = w ++ 32 :: joinWords (w2 :: ws3)
        from rfl]
      rw [splitAll_append_sep w _ hnw]
      rw [List.filter_cons, if_pos (by simpa using hne)]
      have ht := ih (fun u hu => h u (List.mem_cons_of_mem _ hu))
      unfold pyWords at ht
      rw [ht]

theorem mem_joinWords :
    ∀ (ws : List Str) (c : Nat), c ∈ joinWords ws →
      (∃ w ∈ ws, c ∈ w) ∨ c = 32 := by
  intro ws
  induction ws with
  | nil => intro c hc; cases hc
  | cons w ws2 ih =>
    intro c hc
    cases ws2 with
    | nil =>
      left
      exact ⟨w, List.mem_cons_self _ _, hc⟩
    | cons w2 ws3 =>
      rw [show joinWords (w :: w2 :: ws3) = w ++ 32 :: joinWords (w2 :: ws3)
        from rfl] at hc
      rcases List.mem_append.mp hc with h1 | h1
      · left
        exact ⟨w, List.mem_cons_self _ _, h1⟩
      · rcases List.mem_cons.mp h1 with rfl | h2
        · right
          rfl
        · rcases ih c h2 with ⟨u, hu, hcu⟩ | h32
          · left
            exact ⟨u, List.mem_cons_of_mem _ hu, hcu⟩
          · right
            exact h32

/-! ### Character-level fixed-point lemmas -/

theorem pyLower_idem (c : Nat) : pyLower (pyLower c) = pyLower c := by
  unfold pyLower
  split_ifs <;> omega

theorem turkishFold_fix (c : Nat) (h1 : c ≠ 305) (h2 : c ≠ 287)
    (h3 : c ≠ 351) (h4 : c ≠ 246) (h5 : c ≠ 252) (h6 : c ≠ 231) :
    turkishFold c = c := by
  unfold turkishFold
  rw [if_neg h1, if_neg h2, if_neg h3, if_neg h4, if_neg h5, if_neg h6]

theorem turkishFold_idem (c : Nat) :
    turkishFold (turkishFold c) = turkishFold c := by
  by_cases h1 : c = 305
  · subst h1; decide
  by_cases h2 : c = 287
  · subst h2; decide
  by_cases h3 : c = 351
  · subst h3; decide
  by_cases h4 : c = 246
  · subst h4; decide
  by_cases h5 : c = 252
  · subst h5; decide
  by_cases h6 : c = 231
  · subst h6; decide
  rw [turkishFold_fix c h1 h2 h3 h4 h5 h6]
  exact turkishFold_fix c h1 h2 h3 h4 h5 h6

theorem pyLower_turkishFold_fixed (d : Nat) (h : pyLower d = d) :
    pyLower (turkishFold d) = turkishFold d := by
  by_cases h1 : d = 305
  · subst h1; decide
  by_cases h2 : d = 287
  · subst h2; decide
  by_cases h3 : d = 351
  · subst h3; decide
  by_cases h4 : d = 246
  · subst h4; decide
  by_cases h5 : d = 252
  · subst h5; decide
  by_cases h6 : d = 231
  · subst h6; decide
  rw [turkishFold_fix d h1 h2 h3 h4 h5 h6]
  exact h

/-- C9: the name canonicalizer `standardize_name` is idempotent. -/
theorem c9_idempotent (xs : Str) :
    standardize_name (standardize_name xs) = standardize_name xs := by
  have hchars : ∀ c ∈ standardize_name xs,
      pyLower c = c ∧ turkishFold c = c ∧
      (pyIsAlnum c || c == 32) = true := by
    intro c hc
    unfold standardize_name at hc
    rcases mem_joinWords _ c hc with ⟨w, hw, hcw⟩ | rfl
    · have hwsub := (List.mem_filter.mp hw).1
      have hcin := mem_splitAll_subset _ _ hwsub c hcw
      have hp := List.of_mem_filter hcin
      have hcin2 := List.mem_of_mem_filter hcin
      obtain ⟨d, hd, rfl⟩ := List.mem_map.mp hcin2
      obtain ⟨e, _, rfl⟩ := List.mem_map.mp hd
      refine ⟨pyLower_turkishFold_fixed _ (pyLower_idem e), ?_, hp⟩
      exact turkishFold_idem (pyLower e)
    · exact ⟨by decide, by decide, by decide⟩
  have key : ∀ ys : Str,
      (∀ c ∈ ys, pyLower c = c ∧ turkishFold c = c ∧
        (pyIsAlnum c || c == 32) = true) →
      standardize_name ys = joinWords (pyWords ys) := by
    intro ys h
    unfold standardize_name
    rw [map_fix pyLower ys (fun a ha => (h a ha).1)]
    rw [map_fix turkishFold ys (fun a ha => (h a ha).2.1)]
    rw [filter_fix _ ys (fun a ha => (h a ha).2.2)]
  rw [key (standardize_name xs) hchars]
  have hprops : ∀ w ∈ pyWords
      (((xs.map pyLower).map turkishFold).filter
        (fun c => pyIsAlnum c || c == 32)),
      w ≠ [] ∧ ∀ c ∈ w, isWsChar c = false := by
    intro w hw
    refine ⟨?_, splitAll_no_ws _ w (List.mem_filter.mp hw).1⟩
    have he := (List.mem_filter.mp hw).2
    simpa using he
  unfold standardize_name
  rw [pyWords_joinWords _ hprops]

/-! ### Schema-totality lemmas -/

end Futapp
